import Mathlib

/-!
Verification of `src/evi-python-raw-api/src/audio_streamer.py`.

The single source file implements an `AudioStreamer` class: callers submit
opaque byte chunks (`add_audio_chunk`), a background worker thread
(`_audio_processing_worker`) drains the queue, decodes each chunk (container
decode via a temporary file and `soundfile.read`, with a raw little-endian
int16 PCM fallback via `np.frombuffer`) and appends the decoded samples to a
shared list `audio_data_buffer`; a sounddevice output callback
(`audio_callback`) drains that buffer `frames` samples at a time, padding
with silence.

Embedding conventions:
* bytes are `List Nat` (each entry a byte value 0..255; the byte bound is
  irrelevant to every property proved here, so it is not carried as an
  invariant);
* audio samples are exact rationals `ℚ` (every value produced by the code's
  arithmetic, `int16 / 32768.0`, is exactly representable in binary64, so
  rational arithmetic is a faithful model of the Python float arithmetic);
* the external container decoder (`soundfile.read`) is an oracle parameter
  `cd : List Nat → Option (List ℚ)`; `none` models the call raising;
* Python exceptions that the code catches are modelled by `Option`/case
  analysis; functions that the code guarantees not to raise are total.
-/

/-- Little-endian signed 16-bit integer from two bytes, as `np.frombuffer`
with `dtype=np.int16` reads them (line 108 of the source). -/
def int16OfBytes (b0 b1 : Nat) : Int :=
  let v := b0 + 256 * b1
  if v % 65536 < 32768 then (v % 65536 : Int) else (v % 65536 : Int) - 65536

/-- Samples obtained from a byte list by consuming little-endian int16 pairs
and normalising by 32768.0 (`.astype(np.float32) / 32768.0`, line 108).
A trailing odd byte is never reached on the inputs where this is used. -/
def pcmSamples : List Nat → List ℚ
  | b0 :: b1 :: rest => ((int16OfBytes b0 b1 : ℚ) / 32768) :: pcmSamples rest
  | _ => []

/-- The raw-PCM fallback path (lines 107-113): `np.frombuffer(audio_data,
dtype=np.int16)` raises `ValueError` when the buffer length is not a multiple
of the 2-byte item size, which the code catches (`pcm_error`); otherwise the
int16 values are normalised by 32768.0.  `none` models the raised-and-caught
failure. -/
def decodeRawPCM (bytes : List Nat) : Option (List ℚ) :=
  if bytes.length % 2 = 0 then some (pcmSamples bytes) else none

/-- Outcome of the container-decode attempt (lines 87-105): the decoded
samples (or `none` when `soundfile.read` raised), together with whether the
named temporary file written at lines 89-91 was unlinked before leaving the
attempt. -/
structure ContainerOutcome where
  samples : Option (List ℚ)
  tempFileReleased : Bool
  deriving Repr, DecidableEq

/-- The container-decode attempt of `_audio_processing_worker` (lines 87-105):
a `NamedTemporaryFile(suffix=.wav, delete=False)` is written with the chunk
bytes; `soundfile.read(temp_file.name)` is attempted; `os.unlink` (line 97)
runs only after a successful read, and the `except decode_error` branch
(line 104) is entered without any unlink when the read raises. -/
def containerDecode (cd : List Nat → Option (List ℚ)) (bytes : List Nat) :
    ContainerOutcome :=
  match cd bytes with
  | some samples => ⟨some samples, true⟩
  | none => ⟨none, false⟩

/-- Processing of one chunk taken from the queue (lines 85-113): try the
container decode; on success extend `audio_data_buffer` with the samples; on
failure try the raw-PCM fallback, extend on success; when both fail the chunk
is dropped and the buffer is untouched. Returns the new buffer. -/
def processChunk (cd : List Nat → Option (List ℚ)) (buffer : List ℚ)
    (bytes : List Nat) : List ℚ :=
  match (containerDecode cd bytes).samples with
  | some samples => buffer ++ samples
  | none =>
    match decodeRawPCM bytes with
    | some samples => buffer ++ samples
    | none => buffer

/-- The samples a single chunk contributes to the buffer (empty when both
decode paths fail). -/
def decodeSamples (cd : List Nat → Option (List ℚ)) (bytes : List Nat) :
    List ℚ :=
  processChunk cd [] bytes

/-- Concatenation, in order, of the samples contributed by a list of chunks. -/
def decodedAll (cd : List Nat → Option (List ℚ)) : List (List Nat) → List ℚ
  | [] => []
  | c :: rest => decodeSamples cd c ++ decodedAll cd rest

/-- Result of one invocation of the output callback: the `outdata` array
written (length = requested `frames`), the buffer left behind, and the
samples actually drained from the buffer (excluding silence padding). -/
structure CallbackResult where
  outdata : List ℚ
  buffer : List ℚ
  drained : List ℚ
  deriving Repr, DecidableEq

/-- `audio_callback` (lines 45-64), acting on `audio_data_buffer` under
`buffer_lock`: with at least `frames` samples, `chunk = buffer[:frames]`,
`buffer = buffer[frames:]`, `outdata[:] = chunk`; with some but fewer than
`frames`, all of the buffer is written followed by zero padding and the
buffer becomes empty; with an empty buffer, `outdata.fill(0)`. -/
def audioCallback (buffer : List ℚ) (frames : Nat) : CallbackResult :=
  if frames ≤ buffer.length then
    { outdata := buffer.take frames
      buffer := buffer.drop frames
      drained := buffer.take frames }
  else if 0 < buffer.length then
    { outdata := buffer ++ List.replicate (frames - buffer.length) 0
      buffer := []
      drained := buffer }
  else
    { outdata := List.replicate frames 0
      buffer := []
      drained := [] }

/-- Result of one `self.audio_queue.get(timeout=0.1)` call in the worker loop
(line 81): either the bounded wait timed out (`queue.Empty`, caught at line
115) or an item was taken — the item being either the `None` sentinel or a
byte chunk, since `add_audio_chunk` accepts any value. -/
inductive TakeResult where
  | timeout
  | item (chunk : Option (List Nat))
  deriving Repr, DecidableEq

/-- How a run of the worker loop of `_audio_processing_worker` ended. -/
inductive WorkerExit where
  /-- the supplied schedule of queue interactions is exhausted and the loop
  is still iterating -/
  | stillRunning
  /-- the loop executed `break` after taking the `None` sentinel (lines
  82-83) -/
  | exitedSentinel
  /-- the `while self.playing` condition (line 78) was false -/
  | exitedStopped
  deriving Repr, DecidableEq

/-- The loop of `_audio_processing_worker` (lines 76-119), run against a
schedule of queue-take results.  `playing` is the value of `self.playing`
observed by the loop condition; the loop itself never writes it, so it is a
constant of the run.  `queue.Empty` leads to `continue` (line 116); the
`None` sentinel to `break` (line 83); a byte chunk to `processChunk`, whose
internal failures are all caught, followed by the next iteration. -/
def runWorker (cd : List Nat → Option (List ℚ)) (playing : Bool) :
    List TakeResult → List ℚ → List ℚ × WorkerExit
  | takes, buffer =>
    if playing = false then (buffer, .exitedStopped)
    else
      match takes with
      | [] => (buffer, .stillRunning)
      | .timeout :: rest => runWorker cd playing rest buffer
      | .item none :: _ => (buffer, .exitedSentinel)
      | .item (some bytes) :: rest =>
          runWorker cd playing rest (processChunk cd buffer bytes)

/-- Observable state of the chunk/sample pipeline: the pending chunk queue
(`self.audio_queue`), the shared sample buffer (`self.audio_data_buffer`),
and — as history — the concatenation of all samples the output callback has
drained so far. -/
structure PState where
  queue : List (List Nat)
  buffer : List ℚ
  drained : List ℚ
  deriving Repr, DecidableEq

/-- An event of the running pipeline: a caller submits a byte chunk
(`add_audio_chunk`), the worker performs one iteration that takes the queue
head (lines 81-113), or the device invokes the output callback requesting
`frames` samples (lines 45-64). -/
inductive Ev where
  | submit (chunk : List Nat)
  | work
  | callback (frames : Nat)
  deriving Repr, DecidableEq

/-- One pipeline event applied to the pipeline state.  `work` on an empty
queue is the `queue.Empty`/`continue` iteration. -/
def pipeStep (cd : List Nat → Option (List ℚ)) (s : PState) : Ev → PState
  | .submit c => { s with queue := s.queue ++ [c] }
  | .work =>
    match s.queue with
    | [] => s
    | c :: rest => { s with queue := rest, buffer := processChunk cd s.buffer c }
  | .callback frames =>
    let r := audioCallback s.buffer frames
    { s with buffer := r.buffer, drained := s.drained ++ r.drained }

/-- A whole interleaving of submissions, worker iterations and callback
invocations, applied in order. -/
def runPipe (cd : List Nat → Option (List ℚ)) (evs : List Ev) (s : PState) :
    PState :=
  evs.foldl (pipeStep cd) s

/-- The chunks submitted during a trace, in submission order. -/
def submits : List Ev → List (List Nat)
  | [] => []
  | .submit c :: rest => c :: submits rest
  | _ :: rest => submits rest

/-- `queue.Queue.put(item, block=False)` (Python semantics): with
`maxsize <= 0` the queue is unbounded; otherwise `queue.Full` is raised when
the queue already holds `maxsize` items.  The source constructs
`queue.Queue()` (line 18), i.e. `maxsize = 0`. -/
def putNowait (maxsize : Nat) (q : List α) (x : α) : Except Unit (List α) :=
  if 0 < maxsize ∧ maxsize ≤ q.length then .error () else .ok (q ++ [x])

/-- `add_audio_chunk` (lines 121-126): `put(audio_data, block=False)` with
the `queue.Full` exception caught and reported.  Returns the new queue and
whether the chunk was dropped (and the event reported).  Total: no exception
escapes to the caller. -/
def add_audio_chunk (maxsize : Nat) (q : List α) (x : α) : List α × Bool :=
  match putNowait maxsize q x with
  | .ok q' => (q', false)
  | .error _ => (q, true)

/-- State of an `AudioStreamer` object (lines 17-24) as far as lifecycle is
concerned, plus two ghost counters recording how many worker threads and
output streams were ever created. -/
structure Streamer where
  /-- items of `self.audio_queue`; `none` is the sentinel value `None` -/
  queue : List (Option (List Nat))
  /-- `self.playing` -/
  playing : Bool
  /-- `self.audio_thread is not None and self.audio_thread.is_alive()` -/
  threadAlive : Bool
  /-- `self.audio_stream is not None` -/
  streamPresent : Bool
  /-- the output stream exists and has not been stopped/closed -/
  streamActive : Bool
  /-- `self.audio_data_buffer` -/
  buffer : List ℚ
  /-- ghost: number of `threading.Thread(...)` creations (line 30) -/
  workersStarted : Nat
  /-- ghost: number of `sd.OutputStream(...)` creations (line 66) -/
  streamsStarted : Nat
  deriving Repr, DecidableEq

/-- `start` (lines 26-32): only when no live worker thread exists does it set
`playing`, create and start a new worker thread, and open and start a new
output stream; otherwise the body is skipped entirely. -/
def Streamer.start (s : Streamer) : Streamer :=
  if s.threadAlive then s
  else
    { s with
      playing := true
      threadAlive := true
      streamPresent := true
      streamActive := true
      workersStarted := s.workersStarted + 1
      streamsStarted := s.streamsStarted + 1 }

/-- `stop` (lines 34-41): set `playing = False`; if an output stream object
exists, stop and close it (`sounddevice` stop/close default to
`ignore_errors=True`, so repeating them on a closed stream raises nothing);
if the worker thread is alive, join it — the loop observes `playing = False`
and exits, so after the bounded join the thread is no longer alive. -/
def Streamer.stop (s : Streamer) : Streamer :=
  { s with
    playing := false
    streamActive := if s.streamPresent then false else s.streamActive
    threadAlive := false }

/-- `add_audio_chunk` on the streamer object: the queue is unbounded
(`queue.Queue()`, line 18), so `putNowait` with `maxsize = 0` never reports
`queue.Full`.  Valid in every `StreamState`. -/
def Streamer.addChunk (s : Streamer) (x : Option (List Nat)) : Streamer :=
  match putNowait 0 s.queue x with
  | .ok q' => { s with queue := q' }
  | .error _ => s

/-! ## Helper lemmas -/

lemma audioCallback_drained_eq (buffer : List ℚ) (frames : Nat) :
    (audioCallback buffer frames).drained = buffer.take frames := by
  unfold audioCallback
  split_ifs with h1 h2
  · rfl
  · exact (List.take_of_length_le (Nat.le_of_not_le h1)).symm
  · have : buffer = [] := List.length_eq_zero.mp (Nat.eq_zero_of_not_pos h2)
    simp [this]

lemma audioCallback_buffer_eq (buffer : List ℚ) (frames : Nat) :
    (audioCallback buffer frames).buffer = buffer.drop frames := by
  unfold audioCallback
  split_ifs with h1 h2
  · rfl
  · exact (List.drop_eq_nil_of_le (Nat.le_of_not_le h1)).symm
  · have : buffer = [] := List.length_eq_zero.mp (Nat.eq_zero_of_not_pos h2)
    simp [this]

lemma audioCallback_conserves (buffer : List ℚ) (frames : Nat) :
    (audioCallback buffer frames).drained ++ (audioCallback buffer frames).buffer
      = buffer := by
  rw [audioCallback_drained_eq, audioCallback_buffer_eq, List.take_append_drop]

lemma processChunk_eq_append (cd : List Nat → Option (List ℚ)) (buffer : List ℚ)
    (bytes : List Nat) :
    processChunk cd buffer bytes = buffer ++ decodeSamples cd bytes := by
  cases h1 : (containerDecode cd bytes).samples <;> cases h2 : decodeRawPCM bytes <;>
    simp [processChunk, decodeSamples, h1, h2]

lemma decodedAll_append (cd : List Nat → Option (List ℚ))
    (l1 l2 : List (List Nat)) :
    decodedAll cd (l1 ++ l2) = decodedAll cd l1 ++ decodedAll cd l2 := by
  induction l1 with
  | nil => simp [decodedAll]
  | cons c rest ih => simp [decodedAll, ih]

/-! ## Claim theorems -/

/-- C2: one invocation of the output callback on a buffer of length `L`,
requesting `frames` samples, behaves as follows.  If `frames ≤ L`: the output
is exactly the first `frames` samples, the buffer keeps the remaining
`L - frames` samples (so a 2000-sample buffer with `frames = 1024` is left
with 976, see the witness).  If `0 < L < frames`: the output is the whole
buffer followed by `frames - L` zeros, the drained samples are exactly the
buffer contents, and the buffer is left empty.  If the buffer is empty: the
output is `frames` zeros. -/
theorem audio_callback_cases (buffer : List ℚ) (frames : Nat) :
    (frames ≤ buffer.length →
      (audioCallback buffer frames).outdata = buffer.take frames ∧
      (audioCallback buffer frames).outdata.length = frames ∧
      (audioCallback buffer frames).buffer = buffer.drop frames ∧
      (audioCallback buffer frames).buffer.length = buffer.length - frames) ∧
    (0 < buffer.length → buffer.length < frames →
      (audioCallback buffer frames).outdata
        = (audioCallback buffer frames).drained
            ++ List.replicate (frames - buffer.length) 0 ∧
      (audioCallback buffer frames).drained = buffer ∧
      (audioCallback buffer frames).buffer = []) ∧
    (buffer = [] →
      (audioCallback buffer frames).outdata = List.replicate frames 0) := by
  refine ⟨fun h => ?_, fun hpos hlt => ?_, fun hnil => ?_⟩
  · have hout : (audioCallback buffer frames).outdata = buffer.take frames := by
      simp [audioCallback, h]
    refine ⟨hout, ?_, audioCallback_buffer_eq buffer frames, ?_⟩
    · rw [hout, List.length_take]
      exact Nat.min_eq_left h
    · rw [audioCallback_buffer_eq, List.length_drop]
  · have h1 : ¬ frames ≤ buffer.length := Nat.not_le_of_lt hlt
    refine ⟨?_, ?_, ?_⟩
    · unfold audioCallback
      split_ifs
      rfl
    · rw [audioCallback_drained_eq]
      exact List.take_of_length_le (Nat.le_of_lt hlt)
    · rw [audioCallback_buffer_eq]
      exact List.drop_eq_nil_of_le (Nat.le_of_lt hlt)
  · subst hnil
    unfold audioCallback
    split_ifs with h1 h2
    · simp at h1
      simp [h1]
    · simp at h2
    · rfl

/-- Witness for C2 at the spec's concrete scenario: a 2000-sample buffer with
`frames = 1024` is left holding 976 samples, and the output is the first
1024 samples of the buffer. -/
theorem audio_callback_cases_witness :
    (audioCallback (List.replicate 2000 (0 : ℚ)) 1024).buffer.length = 976 ∧
    (audioCallback (List.replicate 2000 (0 : ℚ)) 1024).outdata
      = (List.replicate 2000 (0 : ℚ)).take 1024 := by
  have h := (audio_callback_cases (List.replicate 2000 (0 : ℚ)) 1024).1
    (by rw [List.length_replicate]; norm_num)
  refine ⟨?_, h.1⟩
  rw [h.2.2.2, List.length_replicate]

/-- C8: the callback's drain of the playback buffer never removes more than
the requested `frames` samples, always removes exactly the first
`min frames (length)` samples of the buffer (it returns immediately with what
is available rather than waiting), and when fewer than `frames` samples are
available it returns exactly the available samples — possibly none. -/
theorem callback_drain_bounded (buffer : List ℚ) (frames : Nat) :
    (audioCallback buffer frames).drained.length ≤ frames ∧
    (audioCallback buffer frames).drained = buffer.take frames ∧
    (buffer.length < frames → (audioCallback buffer frames).drained = buffer) := by
  refine ⟨?_, audioCallback_drained_eq buffer frames, fun h => ?_⟩
  · rw [audioCallback_drained_eq, List.length_take]
    exact Nat.min_le_left _ _
  · rw [audioCallback_drained_eq]
    exact List.take_of_length_le (Nat.le_of_lt h)

/-- Witness for C8: a 2-sample buffer asked for 4 frames yields exactly the 2
available samples, within the bound. -/
theorem callback_drain_bounded_witness :
    (audioCallback [(1 : ℚ), 2] 4).drained.length ≤ 4 ∧
    (audioCallback [(1 : ℚ), 2] 4).drained = [(1 : ℚ), 2] := by
  have h := callback_drain_bounded [(1 : ℚ), 2] 4
  exact ⟨h.1, h.2.2 (by norm_num)⟩

lemma pcmSamples_spec : ∀ (k : Nat) (bytes : List Nat), bytes.length = 2 * k →
    (pcmSamples bytes).length = k ∧
    ∀ i, i < k → (pcmSamples bytes).getD i 0
      = (int16OfBytes (bytes.getD (2 * i) 0) (bytes.getD (2 * i + 1) 0) : ℚ) / 32768
  | 0, bytes, h => by
    have hb : bytes = [] := List.length_eq_zero.mp (by omega)
    subst hb
    exact ⟨rfl, fun i hi => absurd hi (Nat.not_lt_zero i)⟩
  | k + 1, bytes, h => by
    match bytes with
    | [] => simp at h
    | [b0] => simp at h; omega
    | b0 :: b1 :: rest =>
      have hrest : rest.length = 2 * k := by
        simp at h
        omega
      obtain ⟨ihlen, ihidx⟩ := pcmSamples_spec k rest hrest
      refine ⟨by simp [pcmSamples, ihlen], fun i hi => ?_⟩
      match i with
      | 0 => simp [pcmSamples]
      | j + 1 =>
        have e1 : 2 * (j + 1) = 2 * j + 1 + 1 := by ring
        rw [e1]
        simpa [pcmSamples] using ihidx j (by omega)

/-- C6: the raw-PCM fallback on a byte sequence of even length `2 * k`
produces exactly `k` samples, the `i`-th being the `i`-th little-endian
signed 16-bit integer of the bytes divided by 32768; and it fails (the
caught `ValueError` of `np.frombuffer`, modelled as `none`) exactly when the
byte length is not a multiple of 2. -/
theorem decode_raw_pcm_spec (bytes : List Nat) (k : Nat) :
    (bytes.length = 2 * k →
      ∃ l, decodeRawPCM bytes = some l ∧ l.length = k ∧
        ∀ i, i < k → l.getD i 0
          = (int16OfBytes (bytes.getD (2 * i) 0) (bytes.getD (2 * i + 1) 0) : ℚ)
              / 32768) ∧
    (decodeRawPCM bytes = none ↔ bytes.length % 2 ≠ 0) := by
  constructor
  · intro h
    refine ⟨pcmSamples bytes, ?_, (pcmSamples_spec k bytes h).1,
      (pcmSamples_spec k bytes h).2⟩
    unfold decodeRawPCM
    rw [if_pos (by omega)]
  · unfold decodeRawPCM
    by_cases h : bytes.length % 2 = 0 <;> simp [h]

/-- Witness for C6: two even bytes decode successfully; three bytes (odd
length) fail. -/
theorem decode_raw_pcm_spec_witness :
    (decodeRawPCM [0, 0]).isSome = true ∧ decodeRawPCM [1, 2, 3] = none := by
  obtain ⟨l, hl, -, -⟩ := (decode_raw_pcm_spec [0, 0] 1).1 (by norm_num)
  exact ⟨by rw [hl]; rfl, ((decode_raw_pcm_spec [1, 2, 3] 0).2).mpr (by norm_num)⟩

/-- C5: chunk submission never raises to the caller and never blocks: when
the queue is at capacity (`0 < maxsize ≤ length`, the only case in which
`put(..., block=False)` raises `queue.Full`) the chunk is dropped and the
event reported (`true` flag); otherwise the chunk is appended and nothing is
reported.  In both cases `add_audio_chunk` returns normally — the full-queue
case is the only per-chunk condition even detectable at the call site, and
it too is swallowed after reporting. -/
theorem add_audio_chunk_spec (maxsize : Nat) (q : List (List Nat))
    (x : List Nat) :
    (0 < maxsize → maxsize ≤ q.length →
      add_audio_chunk maxsize q x = (q, true)) ∧
    (¬(0 < maxsize ∧ maxsize ≤ q.length) →
      add_audio_chunk maxsize q x = (q ++ [x], false)) := by
  constructor
  · intro h1 h2
    simp [add_audio_chunk, putNowait, h1, h2]
  · intro h
    simp only [add_audio_chunk, putNowait, if_neg h]

/-- Witness for C5: a full 1-slot queue drops and reports; the unbounded
queue of the source (`maxsize = 0`) always appends. -/
theorem add_audio_chunk_spec_witness :
    add_audio_chunk 1 [[0]] [1] = ([[0]], true) ∧
    add_audio_chunk 0 [] [1] = ([[1]], false) :=
  ⟨(add_audio_chunk_spec 1 [[0]] [1]).1 (by norm_num) (by norm_num),
   (add_audio_chunk_spec 0 [] [1]).2 (by norm_num)⟩

/-- C4 (violated by the code): the scratch temporary file is unlinked when
`soundfile.read` succeeds, but on the decode-failure path — `soundfile.read`
raising, modelled by the oracle returning `none` — the `except` branch is
entered before `os.unlink(temp_file.name)` (line 97) ever runs, so the
temporary file is NOT released on that exit path. -/
theorem containerDecode_temp_file (cd : List Nat → Option (List ℚ))
    (bytes : List Nat) :
    (cd bytes = none → (containerDecode cd bytes).tempFileReleased = false) ∧
    (∀ samples, cd bytes = some samples →
      (containerDecode cd bytes).tempFileReleased = true) := by
  constructor
  · intro h
    simp [containerDecode, h]
  · intro samples h
    simp [containerDecode, h]

/-- Witness for C4: with a decoder that rejects the single byte `0x00`, the
temporary file written for that chunk is left behind. -/
theorem containerDecode_temp_file_witness :
    (containerDecode (fun _ => none) [0]).tempFileReleased = false :=
  (containerDecode_temp_file (fun _ => none) [0]).1 rfl

/-- C7: `start()` on a streamer whose worker thread is alive (the running
state) is a complete no-op — no second worker thread and no second output
stream are created, no field changes; and `stop()` is idempotent, so a
second `stop()` right after a first is a no-op that raises nothing (the
model's `stop` is a total function: `sounddevice` stop/close default to
`ignore_errors=True` and the thread-join guard is checked). -/
theorem start_stop_idempotent (s : Streamer) :
    (s.threadAlive = true → s.start = s) ∧ s.stop.stop = s.stop := by
  constructor
  · intro h
    simp [Streamer.start, h]
  · cases s with
    | mk q p t sp sa b w st => cases sp <;> simp [Streamer.stop]

/-- Witness for C7: a concrete running streamer, started again, is unchanged
(same ghost creation counters), and stopping its stopped version again
changes nothing. -/
theorem start_stop_idempotent_witness :
    (Streamer.mk [] true true true true [] 1 1).start
      = Streamer.mk [] true true true true [] 1 1 ∧
    (Streamer.mk [] true true true true [] 1 1).stop.stop
      = (Streamer.mk [] true true true true [] 1 1).stop :=
  ⟨(start_stop_idempotent _).1 rfl, (start_stop_idempotent _).2⟩

/-! ## Worker-loop lemmas -/

lemma runWorker_stopped (cd : List Nat → Option (List ℚ))
    (takes : List TakeResult) (buf : List ℚ) :
    runWorker cd false takes buf = (buf, .exitedStopped) := by
  rw [runWorker.eq_def]
  simp

lemma runWorker_true_nil (cd : List Nat → Option (List ℚ)) (buf : List ℚ) :
    runWorker cd true [] buf = (buf, .stillRunning) := by
  simp [runWorker]

lemma runWorker_true_timeout (cd : List Nat → Option (List ℚ))
    (rest : List TakeResult) (buf : List ℚ) :
    runWorker cd true (.timeout :: rest) buf = runWorker cd true rest buf := by
  rw [runWorker]
  simp

lemma runWorker_true_sentinel (cd : List Nat → Option (List ℚ))
    (rest : List TakeResult) (buf : List ℚ) :
    runWorker cd true (.item none :: rest) buf = (buf, .exitedSentinel) := by
  rw [runWorker]
  simp

lemma runWorker_true_chunk (cd : List Nat → Option (List ℚ)) (bytes : List Nat)
    (rest : List TakeResult) (buf : List ℚ) :
    runWorker cd true (.item (some bytes) :: rest) buf
      = runWorker cd true rest (processChunk cd buf bytes) := by
  rw [runWorker]
  simp

lemma runWorker_exit (cd : List Nat → Option (List ℚ)) (playing : Bool)
    (takes : List TakeResult) (buf : List ℚ) :
    ((runWorker cd playing takes buf).2 = .exitedStopped → playing = false) ∧
    ((runWorker cd playing takes buf).2 = .exitedSentinel →
      TakeResult.item none ∈ takes) := by
  induction takes generalizing buf with
  | nil =>
    cases playing <;> simp [runWorker]
  | cons t rest ih =>
    cases playing with
    | false => simp [runWorker_stopped]
    | true =>
      match t with
      | .timeout =>
        rw [runWorker_true_timeout]
        exact ⟨(ih buf).1, fun h => List.mem_cons_of_mem _ ((ih buf).2 h)⟩
      | .item none =>
        rw [runWorker_true_sentinel]
        exact ⟨fun h => by simp at h, fun _ => List.mem_cons_self _ _⟩
      | .item (some bytes) =>
        rw [runWorker_true_chunk]
        exact ⟨(ih _).1, fun h => List.mem_cons_of_mem _ ((ih _).2 h)⟩

lemma runWorker_sentinel_break (cd : List Nat → Option (List ℚ))
    (pre post : List TakeResult) (buf : List ℚ)
    (hpre : TakeResult.item none ∉ pre) :
    runWorker cd true (pre ++ TakeResult.item none :: post) buf
      = ((runWorker cd true pre buf).1, .exitedSentinel) := by
  induction pre generalizing buf with
  | nil =>
    rw [List.nil_append, runWorker_true_sentinel, runWorker_true_nil]
  | cons t rest ih =>
    have hrest : TakeResult.item none ∉ rest := fun hm =>
      hpre (List.mem_cons_of_mem _ hm)
    match t with
    | .timeout =>
      rw [List.cons_append, runWorker_true_timeout, runWorker_true_timeout]
      exact ih _ hrest
    | .item none =>
      exact absurd (List.mem_cons_self _ _) hpre
    | .item (some bytes) =>
      rw [List.cons_append, runWorker_true_chunk, runWorker_true_chunk]
      exact ih _ hrest

lemma runWorker_chunks (cd : List Nat → Option (List ℚ)) (qs : List (List Nat))
    (buf : List ℚ) :
    runWorker cd true (qs.map (fun c => TakeResult.item (some c))) buf
      = (buf ++ decodedAll cd qs, .stillRunning) := by
  induction qs generalizing buf with
  | nil => simp [runWorker_true_nil, decodedAll]
  | cons c rest ih =>
    rw [List.map_cons, runWorker_true_chunk, ih, processChunk_eq_append]
    simp [decodedAll]

/-- C3 counterexample to the final clause as stated ("only the stream state
transitioning to Stopped terminates the loop"): with `playing = true`
throughout — the stream is Running — the worker that takes the `None`
sentinel from the queue exits its loop. -/
theorem sentinel_exit_while_running_counterexample :
    runWorker (fun _ => none) true [TakeResult.item none] []
      = ([], WorkerExit.exitedSentinel) :=
  runWorker_true_sentinel _ _ _

/-- C3 (amended): a chunk whose container decode fails and whose raw-PCM
fallback fails (odd byte length) appends no samples — the buffer is
unchanged — and the worker continues to the next iteration without raising;
the loop terminates only when `playing` is observed false (StreamState
Stopped) or the `None` sentinel is taken from the queue. -/
theorem bad_chunk_never_kills_worker (cd : List Nat → Option (List ℚ))
    (playing : Bool) (bytes : List Nat) (rest takes : List TakeResult)
    (buf : List ℚ) (hcd : cd bytes = none) (hodd : bytes.length % 2 = 1) :
    processChunk cd buf bytes = buf ∧
    runWorker cd true (TakeResult.item (some bytes) :: rest) buf
      = runWorker cd true rest buf ∧
    ((runWorker cd playing takes buf).2 = WorkerExit.exitedStopped →
      playing = false) ∧
    ((runWorker cd playing takes buf).2 = WorkerExit.exitedSentinel →
      TakeResult.item none ∈ takes) := by
  have hp : processChunk cd buf bytes = buf := by
    simp [processChunk, containerDecode, hcd, decodeRawPCM, hodd]
  refine ⟨hp, ?_, (runWorker_exit cd playing takes buf).1,
    (runWorker_exit cd playing takes buf).2⟩
  rw [runWorker_true_chunk, hp]

/-- Witness for C3 (amended): the one-byte chunk `[0x00]` is rejected by both
decode paths, appends nothing, and the loop goes on as if the chunk had not
been taken. -/
theorem bad_chunk_never_kills_worker_witness :
    processChunk (fun _ => none) [] [0] = [] ∧
    runWorker (fun _ => none) true [TakeResult.item (some [0])] []
      = runWorker (fun _ => none) true [] [] := by
  have h := bad_chunk_never_kills_worker (fun _ => none) true [0] [] [] [] rfl rfl
  exact ⟨h.1, h.2.1⟩

/-- C10: `add_audio_chunk(None)` enqueues the sentinel without error and
without touching `playing`; the worker that reaches it — after any sequence
of sentinel-free takes — exits its loop via `break` (`exitedSentinel`, not
`exitedStopped`), leaving the buffer as after the pre-sentinel takes only:
every take scheduled after the sentinel, i.e. every subsequently submitted
chunk, is never decoded or appended.  A `stop()`/`start()` cycle creates a
fresh worker thread (the ghost counter increments) because `stop` leaves the
dead thread behind and `start`'s liveness guard then passes. -/
theorem none_sentinel_halts_worker (cd : List Nat → Option (List ℚ))
    (s : Streamer) (pre post : List TakeResult) (buf : List ℚ)
    (hpre : TakeResult.item none ∉ pre) :
    (s.addChunk none).queue = s.queue ++ [none] ∧
    (s.addChunk none).playing = s.playing ∧
    runWorker cd true (pre ++ TakeResult.item none :: post) buf
      = ((runWorker cd true pre buf).1, WorkerExit.exitedSentinel) ∧
    (s.stop.start.threadAlive = true ∧
      s.stop.start.workersStarted = s.workersStarted + 1) := by
  refine ⟨?_, ?_, runWorker_sentinel_break cd pre post buf hpre, ?_⟩
  · simp [Streamer.addChunk, putNowait]
  · simp [Streamer.addChunk, putNowait]
  · simp [Streamer.stop, Streamer.start]

/-- Witness for C10: a running streamer accepts the sentinel; the worker
takes it first and exits, never processing the valid two-byte chunk queued
behind it. -/
theorem none_sentinel_halts_worker_witness :
    ((Streamer.mk [] true true true true [] 1 1).addChunk none).queue = [none] ∧
    runWorker (fun _ => none) true
        ([] ++ TakeResult.item none :: [TakeResult.item (some [0, 0])]) []
      = (([] : List ℚ), WorkerExit.exitedSentinel) := by
  have h := none_sentinel_halts_worker (fun _ => none)
    (Streamer.mk [] true true true true [] 1 1) []
    [TakeResult.item (some [0, 0])] [] (by simp)
  refine ⟨by simpa using h.1, ?_⟩
  rw [h.2.2.1, runWorker_true_nil]

/-- C9: `add_audio_chunk` on a Stopped streamer (no live worker, `playing`
false) raises nothing and appends the chunk to the queue; after `start()`,
`playing` is true and a worker run that takes the whole queue decodes every
queued chunk in order and appends the samples to the playback buffer — in
particular the chunk submitted while Stopped. -/
theorem chunk_while_stopped_processed (cd : List Nat → Option (List ℚ))
    (s : Streamer) (qs : List (List Nat)) (c : List Nat)
    (_hstopped : s.playing = false) (hdead : s.threadAlive = false)
    (hqueue : s.queue = qs.map some) :
    (s.addChunk (some c)).queue = s.queue ++ [some c] ∧
    (s.addChunk (some c)).start.playing = true ∧
    (s.addChunk (some c)).start.queue = (qs ++ [c]).map some ∧
    runWorker cd true ((qs ++ [c]).map (fun b => TakeResult.item (some b)))
        (s.addChunk (some c)).start.buffer
      = (s.buffer ++ decodedAll cd qs ++ decodeSamples cd c,
          WorkerExit.stillRunning) := by
  have hq : (s.addChunk (some c)).queue = s.queue ++ [some c] := by
    simp [Streamer.addChunk, putNowait]
  have hta : (s.addChunk (some c)).threadAlive = false := by
    simp [Streamer.addChunk, putNowait, hdead]
  refine ⟨hq, ?_, ?_, ?_⟩
  · simp [Streamer.start, hta]
  · simp [Streamer.start, hta, hq, hqueue]
  · have hbuf : (s.addChunk (some c)).start.buffer = s.buffer := by
      simp [Streamer.start, Streamer.addChunk, putNowait, hdead]
    rw [hbuf, runWorker_chunks, decodedAll_append]
    simp [decodedAll]

/-- Witness for C9: the two-byte PCM chunk `[0x00, 0x00]` submitted to a
stopped, empty streamer sits in the queue and, once started and the worker
runs, is decoded to the single sample 0. -/
theorem chunk_while_stopped_processed_witness :
    ((Streamer.mk [] false false false false [] 0 0).addChunk
        (some [0, 0])).queue = [some [0, 0]] ∧
    runWorker (fun _ => none) true [TakeResult.item (some [0, 0])]
        ((Streamer.mk [] false false false false [] 0 0).addChunk
          (some [0, 0])).start.buffer
      = ([(0 : ℚ)], WorkerExit.stillRunning) := by
  have h := chunk_while_stopped_processed (fun _ => none)
    (Streamer.mk [] false false false false [] 0 0) [] [0, 0] rfl rfl (by simp)
  refine ⟨by simpa using h.1, ?_⟩
  have h4 := h.2.2.2
  simpa [decodeSamples, processChunk, containerDecode, decodeRawPCM,
    pcmSamples, int16OfBytes, decodedAll] using h4

/-! ## Pipeline FIFO invariant -/

lemma runPipe_cons (cd : List Nat → Option (List ℚ)) (e : Ev) (rest : List Ev)
    (s : PState) :
    runPipe cd (e :: rest) s = runPipe cd rest (pipeStep cd s e) := rfl

lemma runPipe_invariant (cd : List Nat → Option (List ℚ)) (evs : List Ev)
    (s : PState) :
    (runPipe cd evs s).drained ++ (runPipe cd evs s).buffer
        ++ decodedAll cd (runPipe cd evs s).queue
      = s.drained ++ s.buffer ++ decodedAll cd s.queue
          ++ decodedAll cd (submits evs) := by
  induction evs generalizing s with
  | nil => simp [runPipe, submits, decodedAll]
  | cons e rest ih =>
    rw [runPipe_cons, ih]
    match e with
    | .submit c =>
      simp [pipeStep, submits, decodedAll, decodedAll_append]
    | .work =>
      cases hq : s.queue with
      | nil =>
        simp [pipeStep, hq, submits, decodedAll]
      | cons c q' =>
        simp [pipeStep, hq, submits, decodedAll, processChunk_eq_append]
    | .callback n =>
      have hc := audioCallback_conserves s.buffer n
      simp only [pipeStep, submits]
      simp only [List.append_assoc]
      rw [← List.append_assoc (audioCallback s.buffer n).drained
        (audioCallback s.buffer n).buffer, hc]

/-- C1: over any interleaving of chunk submissions, worker iterations and
output-callback invocations starting from the empty pipeline, the samples
drained so far, followed by the samples still buffered, followed by what the
still-queued chunks will decode to, equal the concatenation — in submission
order — of the decoded samples of all submitted chunks (chunks failing both
decode paths contributing nothing); consequently, once the queue has been
fully worked and the buffer fully drained, the samples drained by the
callback over time are exactly that concatenation — FIFO, nothing duplicated,
nothing skipped. -/
theorem pipeline_fifo (cd : List Nat → Option (List ℚ)) (evs : List Ev) :
    ((runPipe cd evs ⟨[], [], []⟩).drained ++ (runPipe cd evs ⟨[], [], []⟩).buffer
        ++ decodedAll cd (runPipe cd evs ⟨[], [], []⟩).queue
      = decodedAll cd (submits evs)) ∧
    ((runPipe cd evs ⟨[], [], []⟩).queue = [] →
      (runPipe cd evs ⟨[], [], []⟩).buffer = [] →
      (runPipe cd evs ⟨[], [], []⟩).drained = decodedAll cd (submits evs)) := by
  have h := runPipe_invariant cd evs ⟨[], [], []⟩
  simp only [decodedAll, List.append_nil, List.nil_append] at h
  refine ⟨h, fun hq hb => ?_⟩
  rw [hq, hb] at h
  simpa [decodedAll] using h

/-- Witness for C1: submit the raw-PCM chunk `[0x00, 0x00]`, let the worker
process it, drain with one 1-frame callback: the drained sequence is exactly
the decoded sample sequence. -/
theorem pipeline_fifo_witness :
    (runPipe (fun _ => none) [Ev.submit [0, 0], Ev.work, Ev.callback 1]
        ⟨[], [], []⟩).drained
      = decodedAll (fun _ => none)
          (submits [Ev.submit [0, 0], Ev.work, Ev.callback 1]) := by
  refine (pipeline_fifo (fun _ => none)
    [Ev.submit [0, 0], Ev.work, Ev.callback 1]).2 ?_ ?_ <;>
    norm_num [runPipe, pipeStep, processChunk, containerDecode, decodeRawPCM,
      pcmSamples, int16OfBytes, audioCallback]

example : decodeRawPCM [0, 0, 255, 255] = some [0, -1/32768] := by
  norm_num [decodeRawPCM, pcmSamples, int16OfBytes]

example : decodeRawPCM [1, 2, 3] = none := by decide

example : audioCallback [1, 2, 3] 2 = ⟨[1, 2], [3], [1, 2]⟩ := by
  norm_num [audioCallback, List.replicate]

example : audioCallback [1, 2] 4 = ⟨[1, 2, 0, 0], [], [1, 2]⟩ := by
  norm_num [audioCallback, List.replicate]

example : audioCallback [] 3 = ⟨[0, 0, 0], [], []⟩ := by
  norm_num [audioCallback, List.replicate]
